import Mathlib

/-!
Verification development for the production readiness conversation engine of the
architect agent backend (backend/app.py). The Python module is shallowly
embedded: the endpoint production_readiness_chat, its helper functions and the
module level globals are translated into pure Lean functions over an explicit
SessionState record, and every call to the hosted LLM is replaced by an oracle
value supplied as input (a ClassifierOutcome: either the parsed structured
output or a call failure, which in the Python code lands in the corresponding
except block). Python exceptions are modelled with Except String; the outer
try/except of the endpoint is the http_of_result wrapper, which, exactly as in
the source, converts every escaping exception into an HTTP 500 response.
Machine floats of the source (the confidence score, the summary percentage) are
modelled as rationals; Python round(x, 1) is modelled as rounding to the
nearest tenth. Response texts are reproduced from the source (apostrophes are
written with the escape 27); the large indentation runs inside the triple
quoted f-strings of the source are reproduced verbatim. No theorem below
depends on response prose beyond what a claim states.
-/

namespace ArchitectAgent

/-- Chat message, from the Message pydantic model (app.py lines 59-62). The
optional timestamp field is never read by the engine and is omitted. -/
structure Message where
  role : String
  content : String
deriving DecidableEq, Repr

/-- Request body of POST /api/production-readiness (app.py lines 72-74). -/
structure ProductionReadinessRequest where
  service : String
  messages : List Message := []
deriving DecidableEq, Repr

/-- Response body of the chat endpoints (app.py lines 68-70). -/
structure ChatResponse where
  message : Message
  conversation_id : String
deriving DecidableEq, Repr

/-- Checklist item, from the ChecklistItem pydantic model (app.py lines 76-82).
status ranges over "pending", "implemented", "needs_attention",
"not_applicable". -/
structure ChecklistItem where
  item : String
  status : String
  user_response : String := ""
  recommendation : String := ""
  importance : String := ""
  description : String := ""
deriving DecidableEq, Repr

/-- Structured output element for checklist generation, from ChecklistItemData
(app.py lines 84-88). Note that the schema carries no status field. -/
structure ChecklistItemData where
  item : String
  importance : String
  description : String
deriving DecidableEq, Repr

/-- Structured output for intent analysis, from UserIntentAnalysis (app.py
lines 95-99). confidence is a float in the source, modelled as a rational. -/
structure UserIntentAnalysis where
  intent : String
  detected_services : List String := []
  confidence : ℚ
deriving DecidableEq, Repr

/-- Structured output for response analysis, from UserResponseAnalysis (app.py
lines 101-103): a single required field implemented. -/
structure UserResponseAnalysis where
  implemented : String
deriving DecidableEq, Repr

/-- Per service review progress, from ServiceProgress (app.py lines 105-109). -/
structure ServiceProgress where
  service_name : String
  checklist_items : List ChecklistItem := []
  current_item_index : Nat := 0
  is_complete : Bool := false
deriving DecidableEq, Repr

/-- The module level globals that the production readiness engine reads and
writes (app.py lines 112-118). The conversations dictionary belongs to the
out of scope plain chat endpoints and is omitted. -/
structure SessionState where
  production_mode : Bool
  current_service : String
  services_list : List String
  service_progress : List ServiceProgress
  current_service_index : Nat
  conversation_phase : String
deriving DecidableEq, Repr

/-- Initial values of the globals (app.py lines 113-118). -/
def initialState : SessionState :=
  { production_mode := false
    current_service := ""
    services_list := []
    service_progress := []
    current_service_index := 0
    conversation_phase := "collecting_services" }

/-- Outcome of one structured output call to the LLM: either the parsed value,
or a failure of the call (network error, refusal, unparseable result), which in
the Python source transfers control to the except block of the caller. -/
inductive ClassifierOutcome (α : Type) where
  | ok (value : α)
  | callFailure
deriving DecidableEq, Repr

/-- The environment of one turn: the outcomes the LLM would deliver for the
intent call, the response call, and the k-th checklist generation call issued
during the turn (calls are numbered in issue order). -/
structure TurnOracle where
  intent : ClassifierOutcome UserIntentAnalysis
  response : ClassifierOutcome UserResponseAnalysis
  checklist : Nat → ClassifierOutcome (List ChecklistItemData)

/-- Record of one outbound LLM call made during a turn, for counting. -/
inductive CallEvent where
  | intentCall
  | responseCall
  | checklistCall (service : String)
deriving DecidableEq, Repr

/-- HTTP level result of an endpoint: a 200 body or an HTTPException. -/
inductive HttpResult where
  | ok (response : ChatResponse)
  | httpError (status : Nat) (detail : String)
deriving DecidableEq, Repr

/-- Pydantic construction of UserResponseAnalysis from keyword arguments: the
model has the single required field implemented (a string), so construction
succeeds only when that keyword is supplied, and otherwise raises a
ValidationError. -/
def mkUserResponseAnalysis (kwargs : List (String × String)) :
    Except String UserResponseAnalysis :=
  match kwargs.lookup "implemented" with
  | some v => .ok { implemented := v }
  | none => .error "ValidationError: implemented: Field required"

/-- The keyword arguments passed to UserResponseAnalysis in the except block of
analyze_user_response (app.py lines 347-351): intent, detected_services and
confidence, i.e. the shape of the UserIntentAnalysis fallback. -/
def responseFallbackKwargs : List (String × String) :=
  [("intent", "unclear"), ("detected_services", "[]"), ("confidence", "0.1")]

/-- analyze_user_response (app.py lines 327-351): returns the parsed structured
output on success; on a call failure the except block attempts the fallback
construction with responseFallbackKwargs, which itself raises because the
required keyword implemented is absent. -/
def analyze_user_response (outcome : ClassifierOutcome UserResponseAnalysis) :
    Except String UserResponseAnalysis :=
  match outcome with
  | .ok r => .ok r
  | .callFailure => mkUserResponseAnalysis responseFallbackKwargs

/-- analyze_user_intent (app.py lines 301-325): returns the parsed structured
output on success, and on a call failure the fallback
UserIntentAnalysis(intent="unclear", detected_services=[], confidence=0.1). -/
def analyze_user_intent (outcome : ClassifierOutcome UserIntentAnalysis) :
    UserIntentAnalysis :=
  match outcome with
  | .ok r => r
  | .callFailure => { intent := "unclear", detected_services := [], confidence := (1 : ℚ) / 10 }

/-- Conversion of one structured output element into a stored checklist item
with status "pending" (app.py lines 408-415). -/
def pending_item_of_data (d : ChecklistItemData) : ChecklistItem :=
  { item := d.item
    importance := d.importance
    description := d.description
    status := "pending"
    user_response := ""
    recommendation := "" }

/-- The single item fallback checklist (app.py lines 422-429). -/
def fallback_item (service : String) : ChecklistItem :=
  { item := "Production readiness assessment for " ++ service
    importance := "Review based on Azure best practices and core knowledge"
    description := "Comprehensive review of this service for production deployment"
    status := "pending"
    user_response := ""
    recommendation := "" }

/-- get_service_checklist_items (app.py lines 389-429): on success, converts
the parsed checklist_items one by one into pending ChecklistItem values; on any
failure of the call, returns the single item fallback list. -/
def get_service_checklist_items (service : String)
    (outcome : ClassifierOutcome (List ChecklistItemData)) : List ChecklistItem :=
  match outcome with
  | .ok ds => ds.map pending_item_of_data
  | .callFailure => [fallback_item service]

/-- Helper for initialize_services_progress: builds one ServiceProgress per
service, consuming checklist oracle outcomes k, k+1, ... in order. -/
def initialize_from (services : List String)
    (oracle : Nat → ClassifierOutcome (List ChecklistItemData)) (k : Nat) :
    List ServiceProgress :=
  match services with
  | [] => []
  | s :: rest =>
    { service_name := s
      checklist_items := get_service_checklist_items s (oracle k)
      current_item_index := 0
      is_complete := false } :: initialize_from rest oracle (k + 1)

/-- initialize_services_progress (app.py lines 431-441): one checklist
generation call per service, in order, each yielding a fresh ServiceProgress
with current_item_index 0 and is_complete false. -/
def initialize_services_progress (services : List String)
    (oracle : Nat → ClassifierOutcome (List ChecklistItemData)) : List ServiceProgress :=
  initialize_from services oracle 0

/-- get_current_service_progress (app.py lines 443-448). -/
def get_current_service_progress (st : SessionState) : Option ServiceProgress :=
  st.service_progress[st.current_service_index]?

/-- get_current_checklist_item (app.py lines 450-455). -/
def get_current_checklist_item (st : SessionState) : Option ChecklistItem :=
  match get_current_service_progress st with
  | none => none
  | some cs => cs.checklist_items[cs.current_item_index]?

/-- In the source the current item is a shared mutable object stored inside
service_progress; assignments to its fields are modelled by replacing the item
at (current_service_index, current_item_index). When either index is out of
range nothing is stored (in the source this helper is only reached when both
resolve). -/
def update_current_item (st : SessionState) (f : ChecklistItem → ChecklistItem) :
    SessionState :=
  match st.service_progress[st.current_service_index]? with
  | none => st
  | some cs =>
    match cs.checklist_items[cs.current_item_index]? with
    | none => st
    | some it =>
      { st with service_progress := st.service_progress.set st.current_service_index ({ cs with checklist_items := cs.checklist_items.set cs.current_item_index (f it) }) }

/-- advance_to_next_item (app.py lines 457-474). The source mutates the
ServiceProgress object aliased inside the list, so the index increment is
visible in the list in every branch. -/
def bump_item (cs : ServiceProgress) : ServiceProgress :=
  { cs with current_item_index := cs.current_item_index + 1 }

def complete_service (cs : ServiceProgress) : ServiceProgress :=
  { cs with current_item_index := cs.current_item_index + 1, is_complete := true }

def advance_to_next_item (st : SessionState) : SessionState :=
  match get_current_service_progress st with
  | none => st
  | some cs =>
    if cs.checklist_items.length ≤ cs.current_item_index + 1 then
      if st.service_progress.length ≤ st.current_service_index + 1 then
        { st with service_progress := st.service_progress.set st.current_service_index (complete_service cs), current_service_index := st.current_service_index + 1, conversation_phase := "complete" }
      else
        { st with service_progress := st.service_progress.set st.current_service_index (complete_service cs), current_service_index := st.current_service_index + 1 }
    else
      { st with service_progress := st.service_progress.set st.current_service_index (bump_item cs) }

/-- The Implemented partition of the summary (app.py lines 483-492): items with
status "implemented" or "not_applicable", rendered in original order. -/
def implemented_entries (items : List ChecklistItem) : List String :=
  match items with
  | [] => []
  | it :: rest =>
    if it.status == "implemented" then ("✅ " ++ it.item) :: implemented_entries rest
    else if it.status == "not_applicable" then
      ("➖ " ++ it.item ++ " (Not Applicable)") :: implemented_entries rest
    else implemented_entries rest

/-- The Needs Attention partition of the summary (app.py lines 489-490). -/
def needs_attention_entries (items : List ChecklistItem) : List String :=
  match items with
  | [] => []
  | it :: rest =>
    if it.status == "needs_attention" then
      ("⚠️ " ++ it.item ++ " - " ++ it.recommendation) :: needs_attention_entries rest
    else needs_attention_entries rest

def bullet_lines (entries : List String) : String :=
  String.join (entries.map (fun e => "- " ++ e ++ "\n"))

/-- One service block of the summary (app.py lines 480-506). -/
def service_section (s : ServiceProgress) : String :=
  let impl := implemented_entries s.checklist_items
  let attn := needs_attention_entries s.checklist_items
  "### " ++ s.service_name ++ "\n"
    ++ (if impl.isEmpty then "" else "**Implemented:**\n" ++ bullet_lines impl ++ "\n")
    ++ (if attn.isEmpty then "" else "**Needs Attention:**\n" ++ bullet_lines attn ++ "\n")
    ++ "---\n\n"

def total_items (progress : List ServiceProgress) : Nat :=
  (progress.map (fun s => s.checklist_items.length)).sum

def count_status (progress : List ServiceProgress) (status : String) : Nat :=
  (progress.map (fun s => (s.checklist_items.filter (fun it => it.status == status)).length)).sum

/-- Python round(x, 1) modelled on rationals: round to the nearest tenth. -/
def roundTo1 (q : ℚ) : ℚ := (round (q * 10) : ℤ) / 10

/-- The overall percentage of app.py line 513:
round(implemented_items/total_items*100, 1). Python raises ZeroDivisionError
when total_items is 0; there is no guard in the source. -/
def overall_percentage (implemented_items total : Nat) : Except String ℚ :=
  if total = 0 then .error "ZeroDivisionError: division by zero"
  else .ok (roundTo1 ((implemented_items : ℚ) / (total : ℚ) * 100))

def summary_body (progress : List ServiceProgress) : String :=
  "## Production Readiness Summary\n\n" ++ String.join (progress.map service_section)

def overall_stats_str (implemented_items total attention_items : Nat) (pct : ℚ) : String :=
  "**Overall Progress:** " ++ toString implemented_items ++ "/" ++ toString total
    ++ " items implemented (" ++ toString pct ++ "%)\n"
    ++ "**Items needing attention:** " ++ toString attention_items ++ "\n"

/-- generate_final_summary (app.py lines 476-516). The per service sections are
built first, then the aggregate line divides by total_items, which raises when
that count is 0. -/
def generate_final_summary (progress : List ServiceProgress) : Except String String :=
  match overall_percentage (count_status progress "implemented") (total_items progress) with
  | .error e => .error e
  | .ok pct =>
    .ok (summary_body progress
      ++ overall_stats_str (count_status progress "implemented") (total_items progress)
          (count_status progress "needs_attention") pct)

/-- GET /api/production-readiness/summary (app.py lines 353-387), reduced to
its summary text: an empty service_progress yields the no session placeholder,
otherwise generate_final_summary runs (and any exception it raises becomes an
HTTP 500 through the except block of the endpoint). -/
def get_production_summary (st : SessionState) : Except String String :=
  if st.service_progress.isEmpty then .ok "No production readiness session in progress."
  else generate_final_summary st.service_progress

/-- The greeting of the start branch (app.py lines 151-155), reproduced with
the indentation the triple quoted source literal contains. -/
def initial_message (service : String) : String :=
  "Hello! I\x27m your Production Readiness Assistant. My role is to review Azure services being deployed as part of your project and provide specific guidance based on Microsoft best practices and our internal knowledge base.\n\n                                I see you\x27re currently looking for production advice for **" ++ service ++ "**. Are there other Azure services that are part of your overall architecture that you\x27d like me to review as well?\n\n                                Please let me know if you have additional services, or type \x27continue\x27 if " ++ service ++ " is the only service you\x27d like me to review today."

/-- Numbered item list helper (app.py lines 197 and 257). -/
def items_list_from (items : List ChecklistItem) (i : Nat) : List String :=
  match items with
  | [] => []
  | it :: rest =>
    (toString (i + 1) ++ ". **" ++ it.item ++ "** - " ++ it.importance)
      :: items_list_from rest (i + 1)

def items_list_str (items : List ChecklistItem) : String :=
  String.intercalate "\n" (items_list_from items 0)

/-- Acknowledgment of the add_services branch (app.py line 186). -/
def add_services_response (detected new_list : List String) : String :=
  "Great! I\x27ve added " ++ String.intercalate ", " detected
    ++ " to our review list. So we\x27ll be reviewing: **" ++ String.intercalate ", " new_list
    ++ "**.\n\nAre there any other services, or would you like to start the systematic review?"

/-- The review kickoff text (app.py lines 199-211). -/
def continue_response (first_service : String) (items : List ChecklistItem)
    (item0 : ChecklistItem) : String :=
  "Perfect! Let\x27s walk through each service systematically to see where you are and what needs to be done.\n\n                                    **Starting with " ++ first_service ++ "**\n\n                                    Here are the key production readiness items I recommend we review:\n\n                                    " ++ items_list_str items ++ "\n\n                                    Let\x27s start with the first one: **" ++ item0.item ++ "**\n\n                                    " ++ item0.importance ++ "\n\n                                    Have you implemented " ++ item0.item.toLower ++ " for your " ++ first_service ++ "?"

/-- The new service transition text (app.py lines 259-269). -/
def next_service_response (old_service new_service : String)
    (items : List ChecklistItem) (item0 : ChecklistItem) : String :=
  "Great progress on " ++ old_service ++ "! Now let\x27s move to **" ++ new_service ++ "**.\n\n                                        Here are the key production readiness items for " ++ new_service ++ ":\n\n                                        " ++ items_list_str items ++ "\n\n                                        Let\x27s start with: **" ++ item0.item ++ "**\n\n                                        " ++ item0.importance ++ "\n\n                                        Have you implemented " ++ item0.item.toLower ++ " for your " ++ new_service ++ "?"

/-- The next item text (app.py lines 273-279). -/
def next_item_response (current_item next_item : ChecklistItem) (service_name : String) :
    String :=
  "Thanks for that information about " ++ current_item.item.toLower ++ ".\n\n                                        Next item: **" ++ next_item.item ++ "**\n\n                                        " ++ next_item.importance ++ "\n\n                                        Have you implemented " ++ next_item.item.toLower ++ " for your " ++ service_name ++ "?"

def msg_unclear_services : String :=
  "I didn\x27t detect any specific Azure services in your response. Could you please list the specific Azure services you\x27d like me to review, or type \x27continue\x27 to start reviewing the services we already have?"

def msg_lost_track : String :=
  "I seem to have lost track of where we are. Let me know if you\x27d like to start over."

def msg_wrong_tracking : String :=
  "Something went wrong with tracking our progress. Let me know if you\x27d like to continue."

def msg_unknown_phase : String :=
  "I\x27m not sure how to help with that. Type \x27summary\x27 to see your production readiness summary."

/-- Case sensitive dedup append of app.py lines 182-184: each detected name not
already present is appended, in the order the classifier provided. -/
def add_detected_services (services_list detected : List String) : List String :=
  detected.foldl (fun acc s => if acc.contains s then acc else acc ++ [s]) services_list

/-- Reply and call record of the continue_to_review branch (app.py lines
189-211), after initialize_services_progress has run: the branch indexes
services_list[0] (raising IndexError when the list is empty), issues one extra
checklist generation call for the first service (app.py line 195) on top of the
per service calls of initialize_services_progress, and then indexes
checklist_items[0] of that extra result (raising IndexError when it is empty). -/
def continue_reply_and_calls (services : List String) (o : TurnOracle) :
    Except String String × List CallEvent :=
  match services[0]? with
  | none =>
    (.error "IndexError: list index out of range",
      CallEvent.intentCall :: services.map CallEvent.checklistCall)
  | some first_service =>
    match (get_service_checklist_items first_service (o.checklist services.length))[0]? with
    | none =>
      (.error "IndexError: list index out of range",
        CallEvent.intentCall :: services.map CallEvent.checklistCall
          ++ [CallEvent.checklistCall first_service])
    | some item0 =>
      (.ok (continue_response first_service
          (get_service_checklist_items first_service (o.checklist services.length)) item0),
        CallEvent.intentCall :: services.map CallEvent.checklistCall
          ++ [CallEvent.checklistCall first_service])

/-- State after the mutations of the continue_to_review branch (app.py lines
190-192): progress initialized, phase set forward, cursor reset. -/
def collecting_continue_state (st : SessionState) (o : TurnOracle) : SessionState :=
  { st with service_progress := initialize_services_progress st.services_list o.checklist, conversation_phase := "reviewing_services", current_service_index := 0 }

def handle_collecting (st : SessionState) (o : TurnOracle) :
    SessionState × Except String String × List CallEvent :=
  if (analyze_user_intent o.intent).intent == "add_services" then
    ({ st with services_list := add_detected_services st.services_list (analyze_user_intent o.intent).detected_services },
      .ok (add_services_response (analyze_user_intent o.intent).detected_services
        (add_detected_services st.services_list (analyze_user_intent o.intent).detected_services)),
      [.intentCall])
  else if (analyze_user_intent o.intent).intent == "continue_to_review" then
    (collecting_continue_state st o, (continue_reply_and_calls st.services_list o).1,
      (continue_reply_and_calls st.services_list o).2)
  else
    (st, .ok msg_unclear_services, [.intentCall])

/-- Reply selection after the advance of the reviewing branch (app.py lines
244-282), in the priority order of the source: phase complete (emit the final
summary, whose exceptions propagate), then service change (emit the stored next
checklist, indexing its first item and raising IndexError when it is empty),
then next item in the same service, then the fallback text. -/
def review_reply (st3 : SessionState) (current_item : ChecklistItem)
    (current_service_obj : ServiceProgress) : Except String String :=
  let next_item := get_current_checklist_item st3
  let next_service := get_current_service_progress st3
  if st3.conversation_phase == "complete" then
    match generate_final_summary st3.service_progress with
    | .error e => .error e
    | .ok summary =>
      .ok ("Excellent! We\x27ve completed the review of all your services.\n\n" ++ summary)
  else
    match next_service with
    | some ns =>
      if ns.service_name != current_service_obj.service_name then
        match ns.checklist_items[0]? with
        | none => .error "IndexError: list index out of range"
        | some item0 =>
          .ok (next_service_response current_service_obj.service_name ns.service_name
            ns.checklist_items item0)
      else
        match next_item with
        | some ni => .ok (next_item_response current_item ni current_service_obj.service_name)
        | none => .ok msg_wrong_tracking
    | none =>
      match next_item with
      | some ni => .ok (next_item_response current_item ni current_service_obj.service_name)
      | none => .ok msg_wrong_tracking

/-- Storing the raw user message on the current item (app.py line 225). -/
def store_user_response (st : SessionState) (content : String) : SessionState :=
  update_current_item st (fun it => { it with user_response := content })

/-- Status and recommendation assignment (app.py lines 231-239): the else
branch of the source treats every implemented value other than the two known
ones as a request for clarification. -/
def apply_review_status (st : SessionState) (ra : UserResponseAnalysis) : SessionState :=
  if ra.implemented == "implemented" then
    update_current_item st (fun it => { it with status := "implemented", recommendation := "Great! This is properly implemented." })
  else if ra.implemented == "needs_attention" then
    update_current_item st (fun it => { it with status := "needs_attention", recommendation := "Consider implementing this - " ++ it.importance.toLower })
  else
    update_current_item st (fun it => { it with status := "needs_attention", recommendation := "Please clarify the implementation status of this item." })

def handle_reviewing (st : SessionState) (content : String) (o : TurnOracle) :
    SessionState × Except String String × List CallEvent :=
  match get_current_checklist_item st, get_current_service_progress st with
  | some current_item, some current_service_obj =>
    match analyze_user_response o.response with
    | .error e => (store_user_response st content, .error e, [.responseCall])
    | .ok ra =>
      (advance_to_next_item (apply_review_status (store_user_response st content) ra),
        review_reply (advance_to_next_item (apply_review_status (store_user_response st content) ra))
          current_item current_service_obj,
        [.responseCall])
  | _, _ => (st, .ok msg_lost_track, [])

/-- The request level global writes of app.py lines 143-144, performed before
any validation. -/
def with_request_globals (st : SessionState) (service : String) : SessionState :=
  { st with production_mode := true, current_service := service }

/-- State after the start branch (app.py lines 147-149): services_list reset to
the single requested service and the phase reset to collecting_services (the
other globals, including any previous service_progress, are kept). -/
def start_state (st : SessionState) (service : String) : SessionState :=
  { st with production_mode := true, current_service := service, services_list := [service], conversation_phase := "collecting_services" }

def pr_inner (st : SessionState) (req : ProductionReadinessRequest) (o : TurnOracle) :
    SessionState × Except String String × List CallEvent :=
  if req.messages.isEmpty then
    (start_state st req.service, .ok (initial_message req.service), [])
  else
    match (req.messages.filter (fun m => m.role == "user")).getLast? with
    | none => (with_request_globals st req.service, .error "400: No user message found", [])
    | some latest =>
      if st.conversation_phase == "collecting_services" then
        handle_collecting (with_request_globals st req.service) o
      else if st.conversation_phase == "reviewing_services" then
        handle_reviewing (with_request_globals st req.service) latest.content o
      else
        (with_request_globals st req.service, .ok msg_unknown_phase, [])

/-- The except block of the endpoint (app.py lines 298-299): every exception
that escapes the body, including the HTTPException(400) the body itself raised,
is converted into HTTPException(500, "Error in production readiness chat: ..."). -/
def http_of_result : Except String String → HttpResult
  | .ok content =>
    .ok { message := { role := "assistant", content := content }
          conversation_id := "production-readiness" }
  | .error e => .httpError 500 ("Error in production readiness chat: " ++ e)

/-- POST /api/production-readiness (app.py lines 134-299): the body runs, the
mutations it performed on the globals persist whether or not it raised, and the
except block shapes the HTTP result. The third component records the outbound
LLM calls of the turn. -/
def production_readiness_chat (st : SessionState) (req : ProductionReadinessRequest)
    (o : TurnOracle) : SessionState × HttpResult × List CallEvent :=
  ((pr_inner st req o).1, http_of_result (pr_inner st req o).2.1, (pr_inner st req o).2.2)

/-- State after one endpoint call. -/
def chat_state (st : SessionState) (req : ProductionReadinessRequest) (o : TurnOracle) :
    SessionState :=
  (production_readiness_chat st req o).1

/-- Calls issued during one endpoint call. -/
def chat_calls (st : SessionState) (req : ProductionReadinessRequest) (o : TurnOracle) :
    List CallEvent :=
  (production_readiness_chat st req o).2.2

/-- States of the global session reachable from the initial globals through any
sequence of endpoint turns, with arbitrary request bodies and arbitrary LLM
outcomes. -/
inductive Reachable : SessionState → Prop where
  | init : Reachable initialState
  | step {st : SessionState} (req : ProductionReadinessRequest) (o : TurnOracle) :
      Reachable st → Reachable (chat_state st req o)

/-- A checklist generation outcome that yields at least one stored item: a call
failure does (the fallback list is a singleton), and a parsed result does
exactly when the model returned at least one element. -/
def checklistOutcomeNonempty : ClassifierOutcome (List ChecklistItemData) → Prop
  | .ok ds => ds ≠ []
  | .callFailure => True

/-- Reachability when every checklist generation outcome offered by the
environment carries at least one item. -/
inductive ReachableNE : SessionState → Prop where
  | init : ReachableNE initialState
  | step {st : SessionState} (req : ProductionReadinessRequest) (o : TurnOracle) :
      ReachableNE st → (∀ k, checklistOutcomeNonempty (o.checklist k)) →
      ReachableNE (chat_state st req o)

/-- Rank of a phase in the forward order of the spec. -/
def phaseRank : String → Nat
  | "reviewing_services" => 1
  | "complete" => 2
  | _ => 0

/-- A call event is a classification call when it is not a checklist call. -/
def isClassificationCall : CallEvent → Bool
  | .intentCall => true
  | .responseCall => true
  | .checklistCall _ => false

/-- The statuses the engine itself ever writes. -/
def statusAllowed (it : ChecklistItem) : Prop :=
  it.status = "pending" ∨ it.status = "implemented" ∨ it.status = "needs_attention"

instance (it : ChecklistItem) : Decidable (statusAllowed it) := by
  unfold statusAllowed; infer_instance

/-- Every stored item has an engine written status. -/
def StatusOK (ps : List ServiceProgress) : Prop :=
  ∀ sp ∈ ps, ∀ it ∈ sp.checklist_items, statusAllowed it

/-- The completion flag agrees with the cursor position, for every service. -/
def CompleteInv (ps : List ServiceProgress) : Prop :=
  ∀ sp ∈ ps, sp.is_complete = true ↔ sp.checklist_items.length ≤ sp.current_item_index

instance (ps : List ServiceProgress) : Decidable (CompleteInv ps) := by
  unfold CompleteInv; infer_instance

instance (ps : List ServiceProgress) : Decidable (StatusOK ps) := by
  unfold StatusOK; infer_instance

lemma update_current_item_phase (st : SessionState) (f : ChecklistItem → ChecklistItem) :
    (update_current_item st f).conversation_phase = st.conversation_phase := by
  unfold update_current_item
  split
  · rfl
  · split
    · rfl
    · rfl

lemma update_current_item_services (st : SessionState) (f : ChecklistItem → ChecklistItem) :
    (update_current_item st f).services_list = st.services_list := by
  unfold update_current_item
  split
  · rfl
  · split
    · rfl
    · rfl

lemma advance_phase_or (st : SessionState) :
    (advance_to_next_item st).conversation_phase = st.conversation_phase ∨
    (advance_to_next_item st).conversation_phase = "complete" := by
  unfold advance_to_next_item
  split
  · exact Or.inl rfl
  · split
    · split
      · exact Or.inr rfl
      · exact Or.inl rfl
    · exact Or.inl rfl

lemma advance_services (st : SessionState) :
    (advance_to_next_item st).services_list = st.services_list := by
  unfold advance_to_next_item
  split
  · rfl
  · split
    · split
      · rfl
      · rfl
    · rfl

lemma StatusOK_set {ps : List ServiceProgress} {i : Nat} {sp' : ServiceProgress}
    (h : StatusOK ps) (h' : ∀ it ∈ sp'.checklist_items, statusAllowed it) :
    StatusOK (ps.set i sp') := by
  intro sp hsp it hit
  rcases List.mem_or_eq_of_mem_set hsp with h1 | rfl
  · exact h sp h1 it hit
  · exact h' it hit

lemma CompleteInv_set {ps : List ServiceProgress} {i : Nat} {sp' : ServiceProgress}
    (h : CompleteInv ps)
    (h' : sp'.is_complete = true ↔ sp'.checklist_items.length ≤ sp'.current_item_index) :
    CompleteInv (ps.set i sp') := by
  intro sp hsp
  rcases List.mem_or_eq_of_mem_set hsp with h1 | rfl
  · exact h sp h1
  · exact h'

lemma StatusOK_update (st : SessionState) (f : ChecklistItem → ChecklistItem)
    (hf : ∀ it, statusAllowed it → statusAllowed (f it))
    (h : StatusOK st.service_progress) :
    StatusOK (update_current_item st f).service_progress := by
  unfold update_current_item
  split
  · exact h
  · rename_i cs hcs
    split
    · exact h
    · rename_i it hit
      have hcsmem : cs ∈ st.service_progress := List.getElem?_mem hcs
      refine StatusOK_set h ?_
      intro it' hit'
      rcases List.mem_or_eq_of_mem_set hit' with h1 | rfl
      · exact h cs hcsmem it' h1
      · exact hf it (h cs hcsmem it (List.getElem?_mem hit))

lemma CompleteInv_update (st : SessionState) (f : ChecklistItem → ChecklistItem)
    (h : CompleteInv st.service_progress) :
    CompleteInv (update_current_item st f).service_progress := by
  unfold update_current_item
  split
  · exact h
  · rename_i cs hcs
    split
    · exact h
    · rename_i it hit
      have hcsmem : cs ∈ st.service_progress := List.getElem?_mem hcs
      refine CompleteInv_set h ?_
      simpa [List.length_set] using h cs hcsmem

lemma StatusOK_advance (st : SessionState) (h : StatusOK st.service_progress) :
    StatusOK (advance_to_next_item st).service_progress := by
  unfold advance_to_next_item
  split
  · exact h
  · rename_i cs hcs
    have hcsmem : cs ∈ st.service_progress := by
      have : st.service_progress[st.current_service_index]? = some cs := hcs
      exact List.getElem?_mem this
    split
    · split
      · exact StatusOK_set h (fun it hit => h cs hcsmem it hit)
      · exact StatusOK_set h (fun it hit => h cs hcsmem it hit)
    · exact StatusOK_set h (fun it hit => h cs hcsmem it hit)

lemma CompleteInv_advance (st : SessionState) (h : CompleteInv st.service_progress) :
    CompleteInv (advance_to_next_item st).service_progress := by
  unfold advance_to_next_item
  split
  · exact h
  · rename_i cs hcs
    have hcsmem : cs ∈ st.service_progress := by
      have : st.service_progress[st.current_service_index]? = some cs := hcs
      exact List.getElem?_mem this
    split
    · rename_i hlen
      split
      · refine CompleteInv_set h ?_
        simpa [complete_service] using hlen
      · refine CompleteInv_set h ?_
        simpa [complete_service] using hlen
    · rename_i hlen
      refine CompleteInv_set h ?_
      simp only [not_le] at hlen
      have hcur := h cs hcsmem
      simp only [bump_item]
      constructor
      · intro hc
        have := hcur.mp hc
        omega
      · intro hle
        omega

lemma status_generated {s : String} {oc : ClassifierOutcome (List ChecklistItemData)}
    {it : ChecklistItem} (hit : it ∈ get_service_checklist_items s oc) :
    it.status = "pending" := by
  cases oc with
  | ok ds =>
    simp only [get_service_checklist_items, List.mem_map] at hit
    obtain ⟨d, _, rfl⟩ := hit
    rfl
  | callFailure =>
    simp only [get_service_checklist_items, List.mem_singleton] at hit
    subst hit
    rfl

lemma StatusOK_initialize_from (services : List String)
    (o : Nat → ClassifierOutcome (List ChecklistItemData)) (k : Nat) :
    StatusOK (initialize_from services o k) := by
  induction services generalizing k with
  | nil => intro sp hsp; simp [initialize_from] at hsp
  | cons s rest ih =>
    intro sp hsp it hit
    simp only [initialize_from, List.mem_cons] at hsp
    rcases hsp with rfl | hsp
    · exact Or.inl (status_generated hit)
    · exact ih (k + 1) sp hsp it hit

lemma generated_ne_nil {s : String} {oc : ClassifierOutcome (List ChecklistItemData)}
    (h : checklistOutcomeNonempty oc) : get_service_checklist_items s oc ≠ [] := by
  cases oc with
  | ok ds => simpa [get_service_checklist_items] using h
  | callFailure => simp [get_service_checklist_items]

lemma CompleteInv_initialize_from (services : List String)
    (o : Nat → ClassifierOutcome (List ChecklistItemData))
    (hne : ∀ j, checklistOutcomeNonempty (o j)) (k : Nat) :
    CompleteInv (initialize_from services o k) := by
  induction services generalizing k with
  | nil => intro sp hsp; simp [initialize_from] at hsp
  | cons s rest ih =>
    intro sp hsp
    simp only [initialize_from, List.mem_cons] at hsp
    rcases hsp with rfl | hsp
    · refine iff_of_false (by simp) ?_
      intro hle
      exact generated_ne_nil (hne k) (List.length_eq_zero.mp (Nat.le_zero.mp hle))
    · exact ih (k + 1) sp hsp

lemma store_user_response_phase (st : SessionState) (c : String) :
    (store_user_response st c).conversation_phase = st.conversation_phase :=
  update_current_item_phase st _

lemma store_user_response_services (st : SessionState) (c : String) :
    (store_user_response st c).services_list = st.services_list :=
  update_current_item_services st _

lemma apply_review_status_eq (st : SessionState) (ra : UserResponseAnalysis) :
    ∃ g, (∀ it, (g it).status = "implemented" ∨ (g it).status = "needs_attention") ∧
      apply_review_status st ra = update_current_item st g := by
  unfold apply_review_status
  split
  · exact ⟨_, fun it => Or.inl rfl, rfl⟩
  · split
    · exact ⟨_, fun it => Or.inr rfl, rfl⟩
    · exact ⟨_, fun it => Or.inr rfl, rfl⟩

lemma apply_review_status_phase (st : SessionState) (ra : UserResponseAnalysis) :
    (apply_review_status st ra).conversation_phase = st.conversation_phase := by
  obtain ⟨g, _, heq⟩ := apply_review_status_eq st ra
  rw [heq]
  exact update_current_item_phase st g

lemma apply_review_status_services (st : SessionState) (ra : UserResponseAnalysis) :
    (apply_review_status st ra).services_list = st.services_list := by
  obtain ⟨g, _, heq⟩ := apply_review_status_eq st ra
  rw [heq]
  exact update_current_item_services st g

lemma StatusOK_store (st : SessionState) (c : String) (h : StatusOK st.service_progress) :
    StatusOK (store_user_response st c).service_progress :=
  StatusOK_update st _ (fun _ hit => hit) h

lemma StatusOK_apply (st : SessionState) (ra : UserResponseAnalysis)
    (h : StatusOK st.service_progress) :
    StatusOK (apply_review_status st ra).service_progress := by
  obtain ⟨g, hg, heq⟩ := apply_review_status_eq st ra
  rw [heq]
  refine StatusOK_update st g (fun it _ => ?_) h
  rcases hg it with h' | h'
  · exact Or.inr (Or.inl h')
  · exact Or.inr (Or.inr h')

lemma CompleteInv_store (st : SessionState) (c : String)
    (h : CompleteInv st.service_progress) :
    CompleteInv (store_user_response st c).service_progress :=
  CompleteInv_update st _ h

lemma CompleteInv_apply (st : SessionState) (ra : UserResponseAnalysis)
    (h : CompleteInv st.service_progress) :
    CompleteInv (apply_review_status st ra).service_progress := by
  obtain ⟨g, _, heq⟩ := apply_review_status_eq st ra
  rw [heq]
  exact CompleteInv_update st g h

lemma handle_collecting_state (st : SessionState) (o : TurnOracle) :
    (handle_collecting st o).1 =
      { st with services_list := add_detected_services st.services_list (analyze_user_intent o.intent).detected_services } ∨
    (handle_collecting st o).1 = collecting_continue_state st o ∨
    (handle_collecting st o).1 = st := by
  unfold handle_collecting
  split
  · exact Or.inl rfl
  · split
    · exact Or.inr (Or.inl rfl)
    · exact Or.inr (Or.inr rfl)

lemma handle_reviewing_state (st : SessionState) (content : String) (o : TurnOracle) :
    (handle_reviewing st content o).1 = st ∨
    (handle_reviewing st content o).1 = store_user_response st content ∨
    ∃ ra, (handle_reviewing st content o).1 =
      advance_to_next_item (apply_review_status (store_user_response st content) ra) := by
  unfold handle_reviewing
  split
  · split
    · exact Or.inr (Or.inl rfl)
    · rename_i ra hra
      exact Or.inr (Or.inr ⟨ra, rfl⟩)
  · exact Or.inl rfl

lemma handle_reviewing_phase (st : SessionState) (c : String) (o : TurnOracle) :
    (handle_reviewing st c o).1.conversation_phase = st.conversation_phase ∨
    (handle_reviewing st c o).1.conversation_phase = "complete" := by
  rcases handle_reviewing_state st c o with h1 | h1 | ⟨ra, h1⟩
  · rw [h1]; exact Or.inl rfl
  · rw [h1]; exact Or.inl (store_user_response_phase st c)
  · rw [h1]
    rcases advance_phase_or (apply_review_status (store_user_response st c) ra) with h2 | h2
    · rw [h2, apply_review_status_phase, store_user_response_phase]
      exact Or.inl rfl
    · exact Or.inr h2

lemma chat_state_cases (st : SessionState) (req : ProductionReadinessRequest) (o : TurnOracle) :
    (req.messages = [] ∧ chat_state st req o = start_state st req.service) ∨
    chat_state st req o = with_request_globals st req.service ∨
    (st.conversation_phase = "collecting_services" ∧
      chat_state st req o = (handle_collecting (with_request_globals st req.service) o).1) ∨
    (st.conversation_phase = "reviewing_services" ∧ ∃ c,
      chat_state st req o = (handle_reviewing (with_request_globals st req.service) c o).1) := by
  unfold chat_state production_readiness_chat pr_inner
  split
  · rename_i hEmpty
    exact Or.inl ⟨List.isEmpty_iff.mp hEmpty, rfl⟩
  · split
    · exact Or.inr (Or.inl rfl)
    · rename_i latest _
      split
      · rename_i hph
        exact Or.inr (Or.inr (Or.inl ⟨by simpa using hph, rfl⟩))
      · split
        · rename_i hph
          exact Or.inr (Or.inr (Or.inr ⟨by simpa using hph, latest.content, rfl⟩))
        · exact Or.inr (Or.inl rfl)

lemma add_detected_nil (l : List String) : add_detected_services l [] = l := rfl

lemma add_detected_cons (l : List String) (s : String) (rest : List String) :
    add_detected_services l (s :: rest) =
      add_detected_services (if l.contains s then l else l ++ [s]) rest := rfl

lemma add_detected_nodup (d l : List String) (h : l.Nodup) :
    (add_detected_services l d).Nodup := by
  induction d generalizing l with
  | nil => exact h
  | cons s rest ih =>
    rw [add_detected_cons]
    by_cases hc : l.contains s
    · rw [if_pos hc]
      exact ih l h
    · rw [if_neg hc]
      refine ih (l ++ [s]) ?_
      have hnm : s ∉ l := fun hm => hc (List.elem_eq_true_of_mem hm)
      simp [List.nodup_append, h, hnm]

lemma add_detected_append (d l : List String) :
    ∃ t, add_detected_services l d = l ++ t := by
  induction d generalizing l with
  | nil => exact ⟨[], (List.append_nil l).symm⟩
  | cons s rest ih =>
    rw [add_detected_cons]
    by_cases hc : l.contains s
    · rw [if_pos hc]
      exact ih l
    · rw [if_neg hc]
      obtain ⟨t, ht⟩ := ih (l ++ [s])
      exact ⟨s :: t, by rw [ht, List.append_assoc]; rfl⟩

lemma add_detected_mem (d l : List String) (x : String) :
    x ∈ add_detected_services l d ↔ x ∈ l ∨ x ∈ d := by
  induction d generalizing l with
  | nil => simp [add_detected_nil]
  | cons s rest ih =>
    rw [add_detected_cons]
    by_cases hc : l.contains s
    · rw [if_pos hc]
      rw [ih l]
      have hsm : s ∈ l := List.mem_of_elem_eq_true hc
      constructor
      · rintro (hx | hx)
        · exact Or.inl hx
        · exact Or.inr (List.mem_cons_of_mem s hx)
      · rintro (hx | hx)
        · exact Or.inl hx
        · rcases List.mem_cons.mp hx with rfl | hx
          · exact Or.inl hsm
          · exact Or.inr hx
    · rw [if_neg hc]
      rw [ih (l ++ [s])]
      simp only [List.mem_append, List.mem_singleton, List.mem_cons]
      tauto

lemma add_detected_drop (d l : List String) :
    List.Sublist ((add_detected_services l d).drop l.length) d := by
  induction d generalizing l with
  | nil =>
    rw [add_detected_nil, List.drop_length]
  | cons s rest ih =>
    rw [add_detected_cons]
    by_cases hc : l.contains s
    · rw [if_pos hc]
      exact (ih l).trans (List.sublist_cons_self s rest)
    · rw [if_neg hc]
      obtain ⟨t, ht⟩ := add_detected_append rest (l ++ [s])
      have hdrop1 : (add_detected_services (l ++ [s]) rest).drop l.length = s :: t := by
        rw [ht, List.append_assoc]
        have : l ++ ([s] ++ t) = l ++ (s :: t) := rfl
        rw [this, List.drop_left]
      have hdrop2 : (add_detected_services (l ++ [s]) rest).drop (l ++ [s]).length = t := by
        rw [ht, List.drop_left]
      have hsub : List.Sublist t rest := by
        have := ih (l ++ [s])
        rwa [hdrop2] at this
      rw [hdrop1]
      exact List.Sublist.cons₂ s hsub

lemma StatusOK_chat (st : SessionState) (req : ProductionReadinessRequest) (o : TurnOracle)
    (h : StatusOK st.service_progress) :
    StatusOK (chat_state st req o).service_progress := by
  rcases chat_state_cases st req o with ⟨_, heq⟩ | heq | ⟨_, heq⟩ | ⟨_, c, heq⟩
  · rw [heq]; exact h
  · rw [heq]; exact h
  · rw [heq]
    rcases handle_collecting_state (with_request_globals st req.service) o with h1 | h1 | h1
    · rw [h1]; exact h
    · rw [h1]; exact StatusOK_initialize_from _ _ 0
    · rw [h1]; exact h
  · rw [heq]
    rcases handle_reviewing_state (with_request_globals st req.service) c o
      with h1 | h1 | ⟨ra, h1⟩
    · rw [h1]; exact h
    · rw [h1]; exact StatusOK_store _ _ h
    · rw [h1]
      exact StatusOK_advance _ (StatusOK_apply _ _ (StatusOK_store _ _ h))

lemma CompleteInv_chat (st : SessionState) (req : ProductionReadinessRequest) (o : TurnOracle)
    (hne : ∀ k, checklistOutcomeNonempty (o.checklist k))
    (h : CompleteInv st.service_progress) :
    CompleteInv (chat_state st req o).service_progress := by
  rcases chat_state_cases st req o with ⟨_, heq⟩ | heq | ⟨_, heq⟩ | ⟨_, c, heq⟩
  · rw [heq]; exact h
  · rw [heq]; exact h
  · rw [heq]
    rcases handle_collecting_state (with_request_globals st req.service) o with h1 | h1 | h1
    · rw [h1]; exact h
    · rw [h1]; exact CompleteInv_initialize_from _ _ hne 0
    · rw [h1]; exact h
  · rw [heq]
    rcases handle_reviewing_state (with_request_globals st req.service) c o
      with h1 | h1 | ⟨ra, h1⟩
    · rw [h1]; exact h
    · rw [h1]; exact CompleteInv_store _ _ h
    · rw [h1]
      exact CompleteInv_advance _ (CompleteInv_apply _ _ (CompleteInv_store _ _ h))

lemma nodup_chat (st : SessionState) (req : ProductionReadinessRequest) (o : TurnOracle)
    (h : st.services_list.Nodup) :
    (chat_state st req o).services_list.Nodup := by
  rcases chat_state_cases st req o with ⟨_, heq⟩ | heq | ⟨_, heq⟩ | ⟨_, c, heq⟩
  · rw [heq]; exact List.nodup_singleton req.service
  · rw [heq]; exact h
  · rw [heq]
    rcases handle_collecting_state (with_request_globals st req.service) o with h1 | h1 | h1
    · rw [h1]
      exact add_detected_nodup _ _ h
    · rw [h1]; exact h
    · rw [h1]; exact h
  · rw [heq]
    rcases handle_reviewing_state (with_request_globals st req.service) c o
      with h1 | h1 | ⟨ra, h1⟩
    · rw [h1]; exact h
    · rw [h1]
      rw [store_user_response_services]
      exact h
    · rw [h1]
      rw [advance_services, apply_review_status_services, store_user_response_services]
      exact h

lemma reachable_StatusOK {st : SessionState} (h : Reachable st) :
    StatusOK st.service_progress := by
  induction h with
  | init => intro sp hsp; simp [initialState] at hsp
  | step req o _ ih => exact StatusOK_chat _ req o ih

lemma reachable_nodup {st : SessionState} (h : Reachable st) :
    st.services_list.Nodup := by
  induction h with
  | init => exact List.nodup_nil
  | step req o _ ih => exact nodup_chat _ req o ih

lemma reachableNE_CompleteInv {st : SessionState} (h : ReachableNE st) :
    CompleteInv st.service_progress := by
  induction h with
  | init => intro sp hsp; simp [initialState] at hsp
  | step req o _ hne ih => exact CompleteInv_chat _ req o hne ih

lemma phase_mono (st : SessionState) (req : ProductionReadinessRequest) (o : TurnOracle)
    (h : req.messages ≠ []) :
    phaseRank st.conversation_phase ≤ phaseRank (chat_state st req o).conversation_phase := by
  rcases chat_state_cases st req o with ⟨hempty, _⟩ | heq | ⟨hph, heq⟩ | ⟨hph, c, heq⟩
  · exact absurd hempty h
  · rw [heq]; exact le_refl _
  · have h0 : phaseRank st.conversation_phase = 0 := by rw [hph]; decide
    rw [h0]
    exact Nat.zero_le _
  · rw [heq]
    rcases handle_reviewing_phase (with_request_globals st req.service) c o with h2 | h2
    · rw [h2]
      exact le_refl _
    · rw [h2, hph]
      decide

lemma pr_inner_start (st : SessionState) (req : ProductionReadinessRequest) (o : TurnOracle)
    (h : req.messages = []) :
    pr_inner st req o = (start_state st req.service, .ok (initial_message req.service), []) := by
  have hc : req.messages.isEmpty = true := by simp [h]
  unfold pr_inner
  rw [if_pos hc]

lemma pr_inner_collecting (st : SessionState) (req : ProductionReadinessRequest) (o : TurnOracle)
    (hmsg : req.messages ≠ [])
    (huser : (req.messages.filter (fun m => m.role == "user")) ≠ [])
    (hph : st.conversation_phase = "collecting_services") :
    pr_inner st req o = handle_collecting (with_request_globals st req.service) o := by
  have hc : req.messages.isEmpty = false := by simp [List.isEmpty_iff, hmsg]
  unfold pr_inner
  rw [if_neg (by simp [hc])]
  cases hl : (req.messages.filter (fun m => m.role == "user")).getLast? with
  | none => exact absurd (List.getLast?_eq_none_iff.mp hl) huser
  | some latest => simp [hph]

lemma handle_collecting_add (st : SessionState) (o : TurnOracle)
    (hadd : (analyze_user_intent o.intent).intent = "add_services") :
    handle_collecting st o =
      ({ st with services_list := add_detected_services st.services_list (analyze_user_intent o.intent).detected_services },
        .ok (add_services_response (analyze_user_intent o.intent).detected_services
          (add_detected_services st.services_list (analyze_user_intent o.intent).detected_services)),
        [.intentCall]) := by
  unfold handle_collecting
  rw [if_pos (beq_iff_eq.mpr hadd)]

lemma handle_collecting_continue (st : SessionState) (o : TurnOracle)
    (hnadd : (analyze_user_intent o.intent).intent ≠ "add_services")
    (hcont : (analyze_user_intent o.intent).intent = "continue_to_review") :
    handle_collecting st o =
      (collecting_continue_state st o, (continue_reply_and_calls st.services_list o).1,
        (continue_reply_and_calls st.services_list o).2) := by
  unfold handle_collecting
  rw [if_neg (by simpa [beq_iff_eq] using hnadd), if_pos (beq_iff_eq.mpr hcont)]

lemma continue_calls_eq (services : List String) (o : TurnOracle) :
    (continue_reply_and_calls services o).2 =
      CallEvent.intentCall :: services.map CallEvent.checklistCall
        ++ (match services with
            | [] => []
            | s :: _ => [CallEvent.checklistCall s]) := by
  unfold continue_reply_and_calls
  split
  · rename_i hnone
    have hnil : services = [] := by
      cases services with
      | nil => rfl
      | cons s rest => simp at hnone
    subst hnil
    rfl
  · rename_i s hsome
    cases services with
    | nil => simp at hsome
    | cons a rest =>
      have ha : a = s := by simpa using hsome
      subst ha
      split
      · rfl
      · rfl

lemma chat_calls_cases (st : SessionState) (req : ProductionReadinessRequest) (o : TurnOracle) :
    chat_calls st req o = [] ∨ chat_calls st req o = [CallEvent.intentCall] ∨
    chat_calls st req o = [CallEvent.responseCall] ∨
    chat_calls st req o = (continue_reply_and_calls st.services_list o).2 := by
  unfold chat_calls production_readiness_chat pr_inner
  split
  · exact Or.inl rfl
  · split
    · exact Or.inl rfl
    · split
      · unfold handle_collecting
        split
        · exact Or.inr (Or.inl rfl)
        · split
          · exact Or.inr (Or.inr (Or.inr rfl))
          · exact Or.inr (Or.inl rfl)
      · split
        · unfold handle_reviewing
          split
          · split
            · exact Or.inr (Or.inr (Or.inl rfl))
            · exact Or.inr (Or.inr (Or.inl rfl))
          · exact Or.inl rfl
        · exact Or.inl rfl

lemma filter_classification_checklist (l : List String) :
    (l.map CallEvent.checklistCall).filter isClassificationCall = [] := by
  induction l with
  | nil => rfl
  | cons s rest ih => simp [List.filter_cons, isClassificationCall, ih]

lemma continue_calls_classification (services : List String) (o : TurnOracle) :
    (((continue_reply_and_calls services o).2).filter isClassificationCall).length ≤ 1 := by
  rw [continue_calls_eq]
  cases services with
  | nil => decide
  | cons s rest =>
    simp [List.filter_cons, List.filter_append, isClassificationCall,
      filter_classification_checklist]

/-- Checklist generation calls happen only on the collecting to reviewing
transition: a turn that is not a collecting phase turn classified
continue_to_review issues none (the start, validation failure, add_services,
unclear, reviewing and complete branches record no checklistCall event). -/
lemma no_checklist_calls_outside_continue (st : SessionState)
    (req : ProductionReadinessRequest) (o : TurnOracle)
    (h : ¬(st.conversation_phase = "collecting_services" ∧
      (analyze_user_intent o.intent).intent = "continue_to_review")) :
    ∀ s, CallEvent.checklistCall s ∉ chat_calls st req o := by
  intro s
  unfold chat_calls production_readiness_chat pr_inner
  split
  · simp
  · split
    · simp
    · split
      · rename_i hph
        have hph' : st.conversation_phase = "collecting_services" := by simpa using hph
        unfold handle_collecting
        split
        · simp
        · split
          · rename_i hcont
            exact absurd ⟨hph', by simpa using hcont⟩ h
          · simp
      · split
        · unfold handle_reviewing
          split
          · split
            · simp
            · simp
          · simp
        · simp

lemma implemented_entries_append (l1 l2 : List ChecklistItem) :
    implemented_entries (l1 ++ l2) = implemented_entries l1 ++ implemented_entries l2 := by
  induction l1 with
  | nil => rfl
  | cons it rest ih =>
    simp only [List.cons_append, implemented_entries]
    split_ifs <;> simp [ih]

lemma needs_attention_entries_append (l1 l2 : List ChecklistItem) :
    needs_attention_entries (l1 ++ l2) =
      needs_attention_entries l1 ++ needs_attention_entries l2 := by
  induction l1 with
  | nil => rfl
  | cons it rest ih =>
    simp only [List.cons_append, needs_attention_entries]
    split_ifs <;> simp [ih]

lemma implemented_entries_pending_cons {it : ChecklistItem} (hp : it.status = "pending")
    (rest : List ChecklistItem) :
    implemented_entries (it :: rest) = implemented_entries rest := by
  simp [implemented_entries, hp]

lemma needs_attention_entries_pending_cons {it : ChecklistItem} (hp : it.status = "pending")
    (rest : List ChecklistItem) :
    needs_attention_entries (it :: rest) = needs_attention_entries rest := by
  simp [needs_attention_entries, hp]

lemma implemented_entries_of_allowed (items : List ChecklistItem)
    (h : ∀ it ∈ items, statusAllowed it) :
    implemented_entries items =
      (items.filter (fun it => it.status == "implemented")).map (fun it => "✅ " ++ it.item) := by
  induction items with
  | nil => rfl
  | cons it rest ih =>
    have hit := h it (List.mem_cons_self it rest)
    have hrest := ih (fun x hx => h x (List.mem_cons_of_mem it hx))
    rcases hit with h1 | h1 | h1 <;>
      simp [implemented_entries, List.filter_cons, h1, hrest]

lemma roundTo1_mono {a b : ℚ} (h : a ≤ b) : roundTo1 a ≤ roundTo1 b := by
  unfold roundTo1
  have h1 : round (a * 10) ≤ round (b * 10) := by
    rw [round_eq, round_eq]
    exact Int.floor_mono (by linarith)
  have h2 : ((round (a * 10) : ℤ) : ℚ) ≤ ((round (b * 10) : ℤ) : ℚ) := by exact_mod_cast h1
  exact (div_le_div_iff_of_pos_right (by norm_num)).mpr h2

/-! Concrete inputs used by counterexamples and witnesses. -/

def exItemData : ChecklistItemData :=
  { item := "Item1", importance := "Imp", description := "Desc" }

/-- An environment in which every LLM call fails. -/
def oracle_start : TurnOracle :=
  { intent := .callFailure, response := .callFailure, checklist := fun _ => .callFailure }

/-- The intent classifier detects the service B to add. -/
def oracle_addB : TurnOracle :=
  { intent := .ok { intent := "add_services", detected_services := ["B"], confidence := 1 }
    response := .callFailure
    checklist := fun _ => .callFailure }

/-- A continue turn in which the checklist generated for the second service
parses successfully but carries zero items. -/
def oracle_continue_emptyB : TurnOracle :=
  { intent := .ok { intent := "continue_to_review", detected_services := [], confidence := 1 }
    response := .callFailure
    checklist := fun k => if k = 1 then .ok [] else .ok [exItemData] }

/-- A continue turn in which every checklist generation yields one item. -/
def oracle_continue_ok : TurnOracle :=
  { intent := .ok { intent := "continue_to_review", detected_services := [], confidence := 1 }
    response := .callFailure
    checklist := fun _ => .ok [exItemData] }

/-- A review turn whose response classifier reports implemented. -/
def oracle_yes : TurnOracle :=
  { intent := .callFailure
    response := .ok { implemented := "implemented" }
    checklist := fun _ => .callFailure }

def req_start (s : String) : ProductionReadinessRequest := { service := s, messages := [] }

def req_user (c : String) : ProductionReadinessRequest :=
  { service := "A", messages := [{ role := "user", content := c }] }

/-- Trace with a zero item checklist for service B: start with A, add B,
transition to review. -/
def exState1 : SessionState := chat_state initialState (req_start "A") oracle_start

def exState2 : SessionState := chat_state exState1 (req_user "also B") oracle_addB

def exState3 : SessionState := chat_state exState2 (req_user "continue") oracle_continue_emptyB

def exState4 : SessionState := chat_state exState3 (req_user "yes") oracle_yes

/-- The same trace with non empty checklists throughout. -/
def exStateNE3 : SessionState := chat_state exState2 (req_user "continue") oracle_continue_ok

def exStateNE4 : SessionState := chat_state exStateNE3 (req_user "yes") oracle_yes

/-- A request whose message list is non empty but has no user role message. -/
def req_no_user : ProductionReadinessRequest :=
  { service := "X", messages := [{ role := "assistant", content := "hi" }] }

/-- Claim C1: the claim states that analyze_user_response returns the value
with implemented unclear on any failure of the underlying call and never
raises past the classifier boundary. The code instead raises: its except block
constructs UserResponseAnalysis with the keywords intent, detected_services
and confidence, and the required field implemented is absent, so pydantic
raises a ValidationError out of the classifier. -/
theorem claim_C1_code_bug :
    analyze_user_response ClassifierOutcome.callFailure =
      Except.error "ValidationError: implemented: Field required" ∧
    responseFallbackKwargs.lookup "implemented" = none ∧
    ∀ r : UserResponseAnalysis,
      analyze_user_response ClassifierOutcome.callFailure ≠ Except.ok r := by
  refine ⟨rfl, rfl, ?_⟩
  intro r h
  have h0 : analyze_user_response ClassifierOutcome.callFailure =
      Except.error "ValidationError: implemented: Field required" := rfl
  rw [h0] at h
  exact Except.noConfusion h

/-- Claim C5, counterexample: a successful structured generation that parses
to zero items is passed through unchanged, so the caller receives an empty
list, contradicting the claim that every outcome yields at least one item. -/
theorem claim_C5_counterexample :
    get_service_checklist_items "X" (ClassifierOutcome.ok []) = [] := rfl

/-- Claim C5, amended: generateChecklist never raises (it is total); on a call
failure it returns exactly the single generic fallback item, whose title
contains the service name and whose status is pending; on a successful parse
it returns exactly the parsed items converted to pending checklist items, so
the result is non empty whenever the parse carried at least one item (but can
be empty when the model returned zero items). -/
theorem claim_C5_amended (service : String) :
    get_service_checklist_items service ClassifierOutcome.callFailure =
      [fallback_item service] ∧
    (fallback_item service).status = "pending" ∧
    (fallback_item service).item = "Production readiness assessment for " ++ service ∧
    (∀ ds, get_service_checklist_items service (ClassifierOutcome.ok ds) =
      ds.map pending_item_of_data) ∧
    (∀ ds, ds ≠ [] →
      get_service_checklist_items service (ClassifierOutcome.ok ds) ≠ []) := by
  refine ⟨rfl, rfl, rfl, fun ds => rfl, fun ds hds => ?_⟩
  simpa [get_service_checklist_items] using hds

theorem claim_C5_amended_witness :
    get_service_checklist_items "X" ClassifierOutcome.callFailure = [fallback_item "X"] ∧
    get_service_checklist_items "X" (ClassifierOutcome.ok [exItemData]) ≠ [] :=
  ⟨(claim_C5_amended "X").1, (claim_C5_amended "X").2.2.2.2 [exItemData] (by decide)⟩

/-- Claim C6, counterexample: generate_final_summary divides by the total item
count with no guard, so on the empty progress list (total 0) it raises
ZeroDivisionError instead of yielding a message, contradicting the claim that
render never raises for any input list of ServiceProgress. -/
theorem claim_C6_counterexample :
    generate_final_summary [] = Except.error "ZeroDivisionError: division by zero" ∧
    total_items [] = 0 :=
  ⟨rfl, rfl⟩

/-- Claim C6, amended: when the total item count is nonzero, render never
raises and reports the percentage round(implemented/total*100, 1); when the
total is zero it raises a ZeroDivisionError (there is no degenerate no items
message in render; the no session placeholder is produced by the separate
empty progress guard of get_production_summary). -/
theorem claim_C6_amended (progress : List ServiceProgress)
    (h : total_items progress ≠ 0) :
    generate_final_summary progress =
      Except.ok (summary_body progress
        ++ overall_stats_str (count_status progress "implemented") (total_items progress)
            (count_status progress "needs_attention")
            (roundTo1 ((count_status progress "implemented" : ℚ)
              / (total_items progress : ℚ) * 100))) ∧
    get_production_summary { initialState with service_progress := [] } =
      Except.ok "No production readiness session in progress." := by
  constructor
  · unfold generate_final_summary overall_percentage
    rw [if_neg h]
  · rfl

def exProgress1 : List ServiceProgress :=
  [{ service_name := "A"
     checklist_items := [{ item := "Item1", status := "implemented", user_response := "",
                           recommendation := "", importance := "", description := "" }]
     current_item_index := 1
     is_complete := true }]

theorem claim_C6_amended_witness :
    generate_final_summary exProgress1 =
      Except.ok (summary_body exProgress1
        ++ overall_stats_str (count_status exProgress1 "implemented") (total_items exProgress1)
            (count_status exProgress1 "needs_attention")
            (roundTo1 ((count_status exProgress1 "implemented" : ℚ)
              / (total_items exProgress1 : ℚ) * 100))) ∧
    get_production_summary { initialState with service_progress := [] } =
      Except.ok "No production readiness session in progress." :=
  claim_C6_amended exProgress1 (by decide)

/-- Claim C2, counterexample: exState4 is reachable (start with A, add B,
continue with a checklist parse of zero items for B, answer the single item of
A); the turn producing it called advance, which completed A and moved the
cursor to B, whose ServiceProgress has zero items, currentItemIndex 0 and
complete false — so complete is false although currentItemIndex ≥ len(items). -/
theorem claim_C2_counterexample :
    Reachable exState4 ∧ ¬ CompleteInv exState4.service_progress :=
  ⟨.step (req_user "yes") oracle_yes
      (.step (req_user "continue") oracle_continue_emptyB
        (.step (req_user "also B") oracle_addB
          (.step (req_start "A") oracle_start .init))),
    by decide⟩

/-- Claim C2, amended: provided every checklist generation outcome offered by
the environment carries at least one item (the failure fallback always does),
every reachable session state satisfies: for every ServiceProgress, complete is
true iff currentItemIndex ≥ len(items); in particular the equivalence holds
after every advance call. The unamended claim fails only because a successful
parse with zero items creates a ServiceProgress violating it. -/
theorem claim_C2_amended {st : SessionState} (h : ReachableNE st) :
    CompleteInv st.service_progress :=
  reachableNE_CompleteInv h

theorem claim_C2_amended_witness : CompleteInv exStateNE4.service_progress :=
  claim_C2_amended
    (.step (req_user "yes") oracle_yes
      (.step (req_user "continue") oracle_continue_ok
        (.step (req_user "also B") oracle_addB
          (.step (req_start "A") oracle_start .init (fun _ => trivial))
          (fun _ => trivial))
        (fun _ => List.cons_ne_nil _ _))
      (fun _ => trivial))

/-- Claim C3, counterexample: from the reachable state exState3, whose phase is
reviewing_services, a request with an empty message list (the startSession
operation) resets the global session phase back to collecting_services — an
earlier value in the order. -/
theorem claim_C3_counterexample :
    Reachable exState3 ∧
    exState3.conversation_phase = "reviewing_services" ∧
    (chat_state exState3 (req_start "B") oracle_start).conversation_phase =
      "collecting_services" :=
  ⟨.step (req_user "continue") oracle_continue_emptyB
      (.step (req_user "also B") oracle_addB
        (.step (req_start "A") oracle_start .init)),
    by decide, by decide⟩

/-- Claim C3, amended: every handleTurn with a non empty message list moves the
phase only forward in the order collecting_services, reviewing_services,
complete; the one exception is the start branch (empty message list), which
re-initialises the global session and therefore resets the phase to
collecting_services. getSummary is pure in the model and mutates nothing. -/
theorem claim_C3_amended :
    (∀ st req o, req.messages ≠ [] →
      phaseRank st.conversation_phase ≤ phaseRank (chat_state st req o).conversation_phase) ∧
    (∀ st req o, req.messages = [] →
      chat_state st req o = start_state st req.service) :=
  ⟨phase_mono, fun st req o h => by
    show (pr_inner st req o).1 = _
    rw [pr_inner_start st req o h]⟩

theorem claim_C3_amended_witness :
    phaseRank exState1.conversation_phase ≤
      phaseRank (chat_state exState1 (req_user "hello") oracle_start).conversation_phase ∧
    chat_state exState1 (req_start "C") oracle_start = start_state exState1 "C" :=
  ⟨claim_C3_amended.1 exState1 (req_user "hello") oracle_start (by decide),
    claim_C3_amended.2 exState1 (req_start "C") oracle_start rfl⟩

/-- What an add_services turn guarantees: the updated service list is the
dedup append of the detected names; no duplicates are introduced; existing
names keep their positions (prefix); the members are exactly the old names
plus the detected ones; and the appended suffix respects the classifier order
(it is a sublist of the detected list). -/
def AddTurnSpec (st st' : SessionState) (detected : List String) : Prop :=
  st'.services_list = add_detected_services st.services_list detected ∧
  (st.services_list.Nodup → st'.services_list.Nodup) ∧
  (∃ t, st'.services_list = st.services_list ++ t) ∧
  (∀ x, x ∈ st'.services_list ↔ x ∈ st.services_list ∨ x ∈ detected) ∧
  List.Sublist (st'.services_list.drop st.services_list.length) detected

/-- Claim C4: over any sequence of endpoint turns the service list never holds
duplicates (case sensitive exact match), and an add_services turn in the
collecting phase appends exactly the fresh detected names, in the order the
classifier provided, after the existing names in first seen order. -/
theorem claim_C4 :
    (∀ st, Reachable st → st.services_list.Nodup) ∧
    (∀ st req o, st.conversation_phase = "collecting_services" →
      req.messages ≠ [] →
      (req.messages.filter (fun m => m.role == "user")) ≠ [] →
      (analyze_user_intent o.intent).intent = "add_services" →
      AddTurnSpec st (chat_state st req o) (analyze_user_intent o.intent).detected_services) := by
  constructor
  · exact fun st h => reachable_nodup h
  · intro st req o hph hmsg huser hadd
    have hsl : (chat_state st req o).services_list =
        add_detected_services st.services_list
          (analyze_user_intent o.intent).detected_services := by
      show (pr_inner st req o).1.services_list = _
      rw [pr_inner_collecting st req o hmsg huser hph, handle_collecting_add _ o hadd]
      rfl
    refine ⟨hsl, fun hn => ?_, ?_, fun x => ?_, ?_⟩
    · rw [hsl]; exact add_detected_nodup _ _ hn
    · rw [hsl]; exact add_detected_append _ _
    · rw [hsl]; exact add_detected_mem _ _ x
    · rw [hsl]; exact add_detected_drop _ _

theorem claim_C4_witness :
    initialState.services_list.Nodup ∧ AddTurnSpec exState1 exState2 ["B"] :=
  ⟨claim_C4.1 initialState .init,
    claim_C4.2 exState1 (req_user "also B") oracle_addB
      (by decide) (by decide) (by decide) (by decide)⟩

/-- Claim C7, counterexample: from the reachable state exState1 (service list
[A]), a continue_to_review turn issues the checklist generation call for A
twice — once inside initialize_services_progress and once more to build the
reply (app.py line 195) — refuting at most one checklist generation call per
service per session. -/
theorem claim_C7_counterexample :
    Reachable exState1 ∧ exState1.services_list = ["A"] ∧
    (chat_calls exState1 (req_user "continue") oracle_continue_ok).count
      (CallEvent.checklistCall "A") = 2 :=
  ⟨.step (req_start "A") oracle_start .init, by decide, by decide⟩

/-- Claim C7, amended: every turn issues at most one classification call; the
collecting to reviewing transition issues exactly one checklist generation
call per name in the service list plus one additional call for the first name
(the first service checklist is generated twice in that turn); and no other
turn — any turn that is not a collecting phase turn classified
continue_to_review — issues any checklist generation call. -/
theorem claim_C7_amended :
    (∀ st req o, ((chat_calls st req o).filter isClassificationCall).length ≤ 1) ∧
    (∀ st req o, st.conversation_phase = "collecting_services" →
      req.messages ≠ [] →
      (req.messages.filter (fun m => m.role == "user")) ≠ [] →
      (analyze_user_intent o.intent).intent ≠ "add_services" →
      (analyze_user_intent o.intent).intent = "continue_to_review" →
      chat_calls st req o =
        CallEvent.intentCall :: st.services_list.map CallEvent.checklistCall
          ++ (match st.services_list with
              | [] => []
              | s :: _ => [CallEvent.checklistCall s])) ∧
    (∀ st req o, ¬(st.conversation_phase = "collecting_services" ∧
        (analyze_user_intent o.intent).intent = "continue_to_review") →
      ∀ s, CallEvent.checklistCall s ∉ chat_calls st req o) := by
  refine ⟨?_, ?_, ?_⟩
  · intro st req o
    rcases chat_calls_cases st req o with h | h | h | h
    · rw [h]; decide
    · rw [h]; decide
    · rw [h]; decide
    · rw [h]; exact continue_calls_classification st.services_list o
  · intro st req o hph hmsg huser hnadd hcont
    have heq : chat_calls st req o = (continue_reply_and_calls st.services_list o).2 := by
      show (pr_inner st req o).2.2 = _
      rw [pr_inner_collecting st req o hmsg huser hph,
        handle_collecting_continue _ o hnadd hcont]
      rfl
    rw [heq, continue_calls_eq]
  · exact fun st req o h => no_checklist_calls_outside_continue st req o h

theorem claim_C7_amended_witness :
    ((chat_calls exState1 (req_user "hello") oracle_start).filter
      isClassificationCall).length ≤ 1 ∧
    chat_calls exState1 (req_user "continue") oracle_continue_ok =
      CallEvent.intentCall :: exState1.services_list.map CallEvent.checklistCall
        ++ (match exState1.services_list with
            | [] => []
            | s :: _ => [CallEvent.checklistCall s]) ∧
    CallEvent.checklistCall "A" ∉ chat_calls exState3 (req_user "yes") oracle_yes :=
  ⟨claim_C7_amended.1 exState1 (req_user "hello") oracle_start,
    claim_C7_amended.2.1 exState1 (req_user "continue") oracle_continue_ok
      (by decide) (by decide) (by decide) (by decide) (by decide),
    claim_C7_amended.2.2 exState3 (req_user "yes") oracle_yes (by decide) "A"⟩

/-- Claim C8: evaluated at a non empty message list carrying no user role
message, from the reachable state exState3: the endpoint raises
HTTPException(400, "No user message found"), but its own blanket except block
catches that exception and re-raises it as HTTPException(500), so the caller
sees an internal server error, not a request validation failure. The session
aggregate fields (services, progress, cursor, phase) are untouched by the
turn; only the request level globals production_mode and current_service are
written, before validation. -/
theorem claim_C8_code_bug :
    (production_readiness_chat exState3 req_no_user oracle_start).2.1 =
      HttpResult.httpError 500
        "Error in production readiness chat: 400: No user message found" ∧
    (chat_state exState3 req_no_user oracle_start).services_list = exState3.services_list ∧
    (chat_state exState3 req_no_user oracle_start).service_progress =
      exState3.service_progress ∧
    (chat_state exState3 req_no_user oracle_start).current_service_index =
      exState3.current_service_index ∧
    (chat_state exState3 req_no_user oracle_start).conversation_phase =
      exState3.conversation_phase := by
  refine ⟨by decide, by decide, by decide, by decide, by decide⟩

/-- Claim C9: a pending item contributes to neither summary partition of its
service, yet it is counted by the total that feeds the implemented percentage,
so its presence only lowers (never raises) the reported percentage. -/
theorem claim_C9 (pre post : List ChecklistItem) (it : ChecklistItem)
    (hp : it.status = "pending") (impl total : Nat) (ht : 0 < total) :
    implemented_entries (pre ++ it :: post) = implemented_entries (pre ++ post) ∧
    needs_attention_entries (pre ++ it :: post) = needs_attention_entries (pre ++ post) ∧
    total_items [{ service_name := "s", checklist_items := pre ++ it :: post, current_item_index := 0, is_complete := false }] =
      total_items [{ service_name := "s", checklist_items := pre ++ post, current_item_index := 0, is_complete := false }] + 1 ∧
    overall_percentage impl (total + 1) =
      Except.ok (roundTo1 ((impl : ℚ) / ((total : ℚ) + 1) * 100)) ∧
    roundTo1 ((impl : ℚ) / ((total : ℚ) + 1) * 100) ≤
      roundTo1 ((impl : ℚ) / (total : ℚ) * 100) := by
  refine ⟨?_, ?_, ?_, ?_, ?_⟩
  · rw [implemented_entries_append, implemented_entries_append,
      implemented_entries_pending_cons hp]
  · rw [needs_attention_entries_append, needs_attention_entries_append,
      needs_attention_entries_pending_cons hp]
  · simp [total_items, List.length_append]
    omega
  · unfold overall_percentage
    rw [if_neg (by omega)]
    norm_cast
  · apply roundTo1_mono
    have h1 : (0 : ℚ) < (total : ℚ) := by exact_mod_cast ht
    have h2 : (impl : ℚ) / ((total : ℚ) + 1) ≤ (impl : ℚ) / (total : ℚ) := by
      apply div_le_div_of_nonneg_left (by positivity) h1
      linarith
    exact mul_le_mul_of_nonneg_right h2 (by norm_num)

def pendingIt : ChecklistItem := { item := "P", status := "pending" }

theorem claim_C9_witness :
    implemented_entries ([] ++ pendingIt :: []) = implemented_entries ([] ++ []) ∧
    needs_attention_entries ([] ++ pendingIt :: []) = needs_attention_entries ([] ++ []) ∧
    total_items [{ service_name := "s", checklist_items := [] ++ pendingIt :: [], current_item_index := 0, is_complete := false }] =
      total_items [{ service_name := "s", checklist_items := ([] : List ChecklistItem) ++ [], current_item_index := 0, is_complete := false }] + 1 ∧
    overall_percentage 1 (1 + 1) =
      Except.ok (roundTo1 ((1 : ℚ) / ((1 : ℚ) + 1) * 100)) ∧
    roundTo1 ((1 : ℚ) / ((1 : ℚ) + 1) * 100) ≤ roundTo1 ((1 : ℚ) / (1 : ℚ) * 100) :=
  claim_C9 [] [] pendingIt rfl 1 1 (by decide)

/-- Claim C10: in every reachable session state every stored item status is
pending, implemented or needs_attention — the engine never assigns
not_applicable — and consequently the Implemented partition of the summary
degenerates to the purely implemented filter: its not_applicable branch never
fires. -/
theorem claim_C10 (st : SessionState) (h : Reachable st) :
    StatusOK st.service_progress ∧
    ∀ sp ∈ st.service_progress,
      implemented_entries sp.checklist_items =
        (sp.checklist_items.filter (fun it => it.status == "implemented")).map
          (fun it => "✅ " ++ it.item) := by
  have hs := reachable_StatusOK h
  exact ⟨hs, fun sp hsp => implemented_entries_of_allowed _ (fun it hit => hs sp hsp it hit)⟩

theorem claim_C10_witness :
    StatusOK exState4.service_progress ∧
    ∀ sp ∈ exState4.service_progress,
      implemented_entries sp.checklist_items =
        (sp.checklist_items.filter (fun it => it.status == "implemented")).map
          (fun it => "✅ " ++ it.item) :=
  claim_C10 exState4
    (.step (req_user "yes") oracle_yes
      (.step (req_user "continue") oracle_continue_emptyB
        (.step (req_user "also B") oracle_addB
          (.step (req_start "A") oracle_start .init))))

end ArchitectAgent
